import Mathlib

/-!
Shallow embedding of the document-review model and the document-version
views of this repository (`mayan/apps/document_reviews/models.py` and
`mayan/apps/documents/views/document_version_views.py`).

Framework machinery (Django ORM field semantics, the events app's
`EventManagerSave` / `EventManagerMethodAfter`, the generic view base
classes) is not part of the two source files; where a claim depends on it,
the corresponding definition is modelled from the spec and says so in its
doc comment.  Everything else is translated directly from the source.
-/

namespace Spec2Proof

/-- Kinds of audit events named in the two source files. -/
inductive EventType
  | document_review_created
  | document_review_deleted
  | document_review_edited
  | document_view
deriving DecidableEq, Repr

/-- An object a recorded event can refer to (actor, action object or target). -/
inductive EventSubject
  | user (username : String)
  | document (pk : Nat)
  | review (pk : Nat)
deriving DecidableEq, Repr

/-- Modelled from the spec: the audit-event emission service "records
actor/action-object/target triples" for each event kind. -/
structure EventRecord where
  event : EventType
  actor : Option EventSubject
  action_object : Option EventSubject
  target : EventSubject
deriving DecidableEq, Repr

/-- Modelled from the spec: the framework user account, with a full name and
a login identifier (`username`); `get_full_name` returns the full name.
The user model is framework code not contained in the two source files. -/
structure User where
  full_name : String
  username : String
deriving DecidableEq, Repr

def User.get_full_name (u : User) : String := u.full_name

/-- The `Review` model (`document_reviews/models.py`): a document reference
(by primary key), a user, a free-text comment, plus the framework-managed
primary key (`none` while unsaved) and `submit_date` (set by
`auto_now_add` on insert, `none` while unsaved). -/
structure Review where
  id : Option Nat
  document : Nat
  user : User
  addlcomments : String
  submit_date : Option Nat
deriving DecidableEq, Repr

/-- `Review._event_created_event = event_document_review_created` (line 24). -/
def Review._event_created_event : EventType := .document_review_created

/-- `Review._event_edited_event = event_document_review_created` (line 25 of
the source assigns the *created* event to this attribute). -/
def Review._event_edited_event : EventType := .document_review_created

/-- `Review.get_user_label`: return `self.user.get_full_name()` if it is
truthy (a non-empty string), else `self.user.username`. -/
def Review.get_user_label (r : Review) : String :=
  if r.user.get_full_name ≠ "" then r.user.get_full_name
  else r.user.username

/-- Persistent state touched by `Review.save` / `Review.delete`: the stored
rows, the audit-event log, the next primary key the database will assign,
and the current time used by `auto_now_add`. -/
structure ReviewStore where
  rows : List Review
  events : List EventRecord
  nextId : Nat
  now : Nat
deriving DecidableEq, Repr

/-- Modelled from the spec: `EventManagerSave` (events app, not in the two
source files) commits, around the wrapped `save`, the `created` argument
map when the instance is inserted and the `edited` map when it is updated;
each map's `actor` / `action_object` / `target` entries name instance
attributes (`'self'` meaning the instance).  `Review.save` passes
`created = {event_document_review_created, actor: user,
action_object: document, target: self}` and
`edited = {event_document_review_edited, action_object: document,
target: self}` (no actor entry).  The insert also applies the
`auto_now_add` timestamp and the database-assigned primary key. -/
def Review.save (db : ReviewStore) (r : Review) : ReviewStore × Review :=
  match r.id with
  | none =>
      let saved : Review :=
        { r with id := some db.nextId, submit_date := some db.now }
      let ev : EventRecord :=
        { event := .document_review_created,
          actor := some (.user r.user.username),
          action_object := some (.document r.document),
          target := .review db.nextId }
      ({ db with
          rows := db.rows ++ [saved],
          events := db.events ++ [ev],
          nextId := db.nextId + 1 }, saved)
  | some i =>
      let ev : EventRecord :=
        { event := .document_review_edited,
          actor := none,
          action_object := some (.document r.document),
          target := .review i }
      ({ db with
          rows := db.rows.map (fun x => if x.id = some i then r else x),
          events := db.events ++ [ev] }, r)

/-- Modelled from the spec: `EventManagerMethodAfter` (events app, not in
the two source files) runs the wrapped method and commits its event only
after the method completes without error.  `Review.delete` wraps
`super().delete()` with `event_document_review_deleted` and
`target='document'`.  The Boolean `ok` stands for whether the underlying
row deletion completes without error; on failure the exception propagates
and nothing is emitted. -/
def Review.modelDelete (ok : Bool) (db : ReviewStore) (r : Review) :
    Except String ReviewStore :=
  if ok then
    let db' := { db with rows := db.rows.filter (fun x => x.id ≠ r.id) }
    .ok { db' with
            events := db'.events ++
              [{ event := .document_review_deleted,
                 actor := none,
                 action_object := none,
                 target := .document r.document }] }
  else
    .error "database delete failed"

/-- An in-memory edit of the comment text of a review instance (the only
field the spec allows to change after creation: `user` is declared
`editable=False` and `submit_date` is `auto_now_add`). -/
def edit_comment (r : Review) (c : String) : Review :=
  { r with addlcomments := c }

/-- Apply a sequence of comment edits, saving after each one. -/
def editAndSaveAll (db : ReviewStore) (r : Review) :
    List String → ReviewStore × Review
  | [] => (db, r)
  | c :: cs =>
      let p := Review.save db (edit_comment r c)
      editAndSaveAll p.1 p.2 cs

/-! ### Document-version views (`documents/views/document_version_views.py`) -/

/-- A user-facing notification banner, as raised through
`django.contrib.messages`. -/
inductive Message
  | success (text : String)
  | error (text : String)
deriving DecidableEq, Repr

/-- `DocumentVersionRevertView.view_action`: call
`self.get_object().revert(_user=...)`; on success raise the success
banner; on any exception raise
`'Error reverting document version; %s' % exception`.  The revert
operation itself is external (its result is the `revert` argument,
exceptions carried as their textual description); the whole action is
wrapped in `Except` so that an escaping exception would show as
`.error`. -/
def view_action (revert : Except String Unit) : Except String (List Message) :=
  match revert with
  | .ok _ =>
      .ok [.success "Document version reverted successfully"]
  | .error exception =>
      .ok [.error ("Error reverting document version; " ++ exception)]

/-- A request parameter mapping (`request.GET` / `request.POST`), keys
assumed distinct. -/
def QueryDict := List (String × String)

/-- `QueryDict.get(key)`: the stored value when the key is present. -/
def QueryDict.get (qd : QueryDict) (key : String) : Option String :=
  (List.find? (fun p => p.1 = key) qd).map Prod.snd

/-- The raw value consulted by `DocumentVersionDownloadView.get_item_filename`:
`self.request.GET.get('preserve_extension',
self.request.POST.get('preserve_extension', False))` — `none` stands for
the Python `False` default reached when the key is in neither mapping. -/
def get_preserve_extension_raw (getParams postParams : QueryDict) :
    Option String :=
  match QueryDict.get getParams "preserve_extension" with
  | some v => some v
  | none => QueryDict.get postParams "preserve_extension"

/-- `preserve_extension = preserve_extension == 'true' or
preserve_extension == 'True'` (a Python `False` default compares unequal
to both strings). -/
def parse_preserve_extension (getParams postParams : QueryDict) : Bool :=
  let preserve_extension := get_preserve_extension_raw getParams postParams
  preserve_extension == some "true" || preserve_extension == some "True"

/-- A stored document version: primary key, the parent document's primary
key, the timestamp used for ordering, and its string rendering (`str`). -/
structure DocumentVersion where
  pk : Nat
  document : Nat
  timestamp : Nat
  str : String
deriving DecidableEq, Repr

/-- A document together with its versions. -/
structure Document where
  pk : Nat
  versions : List DocumentVersion
deriving Repr

/-- The descending-timestamp comparison realising `order_by('-timestamp')`. -/
def timestampDesc (a b : DocumentVersion) : Bool := b.timestamp ≤ a.timestamp

/-- `DocumentVersionListView.get_source_queryset`: `self.get_document()
.versions.order_by('-timestamp')` — the versions sorted by timestamp
descending. -/
def get_source_queryset (d : Document) : List DocumentVersion :=
  d.versions.mergeSort timestampDesc

/-- A job placed on the task queue by
`task_update_page_count.apply_async(kwargs={'version_id': instance.pk})`. -/
structure QueuedTask where
  version_id : Nat
deriving DecidableEq, Repr

/-- `DocumentVersionUpdatePageCountView.object_action`: enqueue one
page-count recalculation job keyed by the instance's primary key. -/
def object_action (inst : DocumentVersion) : QueuedTask :=
  { version_id := inst.pk }

/-- Modelled from the spec: `MultipleObjectConfirmActionView` (generic view
base class, not in the two source files) runs `object_action` once for
each object of the selected queryset.  The enqueued jobs, in order. -/
def bulk_page_count_jobs (queryset : List DocumentVersion) : List QueuedTask :=
  queryset.map object_action

/-- The part of the confirmation context built by
`DocumentVersionUpdatePageCountView.get_extra_context`. -/
structure ExtraContext where
  object : Option DocumentVersion
  title : String
deriving DecidableEq, Repr

/-- `ungettext(singular, plural, number)`: the singular wording when
`number == 1`, else the plural wording. -/
def ungettext (singular plural : String) (number : Nat) : String :=
  if number == 1 then singular else plural

/-- `DocumentVersionUpdatePageCountView.get_extra_context`: start from the
`ungettext` title over `queryset.count()`; when the count is 1, add the
single object and replace the title with one naming it
(`'Recalculate the page count of the document version: %s?'
% queryset.first()`). -/
def update_page_count_get_extra_context (queryset : List DocumentVersion) :
    ExtraContext :=
  let result : ExtraContext :=
    { object := none,
      title := ungettext
        "Recalculate the page count of the selected document version?"
        "Recalculate the page count of the selected document versions?"
        queryset.length }
  if queryset.length == 1 then
    { object := queryset.head?,
      title := "Recalculate the page count of the document version: "
        ++ ((queryset.head?.map DocumentVersion.str).getD "") ++ "?" }
  else
    result

/-- Server-side state the preview view touches: the per-user
recently-accessed document list and the audit-event log. -/
structure ServerState where
  recent : List (String × Nat)
  events : List EventRecord
deriving Repr

/-- The rendered response of the preview view (its extra context shows the
object and a title naming it). -/
structure PreviewResponse where
  object : DocumentVersion
  title : String
deriving DecidableEq, Repr

/-- `SingleObjectDetailView.dispatch` as specialized by
`DocumentVersionView.get_extra_context`: render the preview of the
object. -/
def render_preview (version : DocumentVersion) : PreviewResponse :=
  { object := version,
    title := "Preview of document version: " ++ version.str }

/-- `DocumentVersionView.dispatch`: obtain the response from
`super().dispatch`, then mark the parent document as a recent document for
the requesting user, then commit `event_document_view` with the user as
actor and the parent document as target, and return the response. -/
def DocumentVersionView.dispatch (st : ServerState) (user : String)
    (version : DocumentVersion) : ServerState × PreviewResponse :=
  let result := render_preview version
  let st1 := { st with recent := (user, version.document) :: st.recent }
  let st2 := { st1 with
    events := st1.events ++
      [{ event := .document_view,
         actor := some (.user user),
         action_object := none,
         target := .document version.document }] }
  (st2, result)

/-- A concrete one-row store used to exercise the delete path. -/
def sampleStore : ReviewStore :=
  { rows := [{ id := some 4, document := 9,
               user := { full_name := "", username := "ann" },
               addlcomments := "x", submit_date := some 5 }],
    events := [], nextId := 5, now := 6 }

/-- The review stored in `sampleStore`. -/
def sampleReview : Review :=
  { id := some 4, document := 9,
    user := { full_name := "", username := "ann" },
    addlcomments := "x", submit_date := some 5 }

/-- The store produced by a successful delete of `sampleReview` from
`sampleStore`. -/
def sampleStoreAfterDelete : ReviewStore :=
  { rows := [],
    events := [{ event := .document_review_deleted, actor := none,
                 action_object := none, target := .document 9 }],
    nextId := 5, now := 6 }

/-! ### Theorems for the claims -/

/-- C1: for every invocation of the revert handler's action, if the
version's revert operation raises an exception the handler catches it and
shows an error notification whose message contains the exception's textual
description, with the request completing normally (the action never
propagates an exception); if the revert succeeds, a success notification is
shown instead. -/
theorem revert_view_action_handles_exceptions (revert : Except String Unit) :
    (view_action revert).isOk = true ∧
    (∀ exception, revert = .error exception →
      view_action revert =
        .ok [.error ("Error reverting document version; " ++ exception)]) ∧
    (revert = .ok () →
      view_action revert =
        .ok [.success "Document version reverted successfully"]) := by
  cases revert <;> simp [view_action, Except.isOk, Except.toBool]

/-- Witness for C1 at a concrete failing revert. -/
theorem revert_view_action_handles_exceptions_witness :
    view_action (.error "boom") =
      .ok [.error ("Error reverting document version; " ++ "boom")] :=
  (revert_view_action_handles_exceptions (.error "boom")).2.1 "boom" rfl

/-- C4: the "preserve extension" parameter parses to true iff the raw value
consulted (query string first, then form body, `none` when missing) is the
literal string "true" or "True"; any other value parses to false. -/
theorem preserve_extension_parses_true_iff (getParams postParams : QueryDict) :
    parse_preserve_extension getParams postParams = true ↔
      (get_preserve_extension_raw getParams postParams = some "true" ∨
       get_preserve_extension_raw getParams postParams = some "True") := by
  simp [parse_preserve_extension]

/-- Witness for C4: "TRUE", "1", "" and a missing key all parse to false;
"true" and "True" parse to true. -/
theorem preserve_extension_parses_true_iff_witness :
    parse_preserve_extension [("preserve_extension", "TRUE")] [] = false ∧
    parse_preserve_extension [("preserve_extension", "1")] [] = false ∧
    parse_preserve_extension [("preserve_extension", "")] [] = false ∧
    parse_preserve_extension [] [] = false ∧
    parse_preserve_extension [("preserve_extension", "true")] [] = true ∧
    parse_preserve_extension [] [("preserve_extension", "True")] = true := by
  have h := preserve_extension_parses_true_iff
  refine ⟨?_, ?_, ?_, ?_, ?_, ?_⟩
  · have := h [("preserve_extension", "TRUE")] []
    revert this; decide
  · have := h [("preserve_extension", "1")] []
    revert this; decide
  · have := h [("preserve_extension", "")] []
    revert this; decide
  · have := h [] []
    revert this; decide
  · exact (h [("preserve_extension", "true")] []).mpr (Or.inl (by decide))
  · exact (h [] [("preserve_extension", "True")]).mpr (Or.inr (by decide))

/-- C10: when the "preserve_extension" key is present in the query string
its value is used and the form body is ignored; the body is consulted only
when the key is absent from the query string. -/
theorem preserve_extension_get_precedence (getParams postParams : QueryDict) :
    (∀ v, QueryDict.get getParams "preserve_extension" = some v →
      get_preserve_extension_raw getParams postParams = some v) ∧
    (QueryDict.get getParams "preserve_extension" = none →
      get_preserve_extension_raw getParams postParams =
        QueryDict.get postParams "preserve_extension") := by
  constructor
  · intro v hv
    simp [get_preserve_extension_raw, hv]
  · intro hn
    simp [get_preserve_extension_raw, hn]

/-- Witness for C10: key present in both mappings — the query-string value
wins. -/
theorem preserve_extension_get_precedence_witness :
    get_preserve_extension_raw
      [("preserve_extension", "true")] [("preserve_extension", "False")] =
      some "true" :=
  (preserve_extension_get_precedence
      [("preserve_extension", "true")] [("preserve_extension", "False")]).1
    "true" (by decide)

/-- C6: the review display-name helper returns the user's full name when it
is non-empty, and otherwise the user's login identifier. -/
theorem get_user_label_full_name_or_username (r : Review) :
    (r.user.get_full_name ≠ "" → r.get_user_label = r.user.get_full_name) ∧
    (r.user.get_full_name = "" → r.get_user_label = r.user.username) := by
  constructor <;> intro h <;> simp [Review.get_user_label, h]

/-- Witness for C6: full name "Jane Doe" → "Jane Doe"; empty full name with
login "jdoe" → "jdoe". -/
theorem get_user_label_full_name_or_username_witness :
    Review.get_user_label
      { id := none, document := 1,
        user := { full_name := "Jane Doe", username := "jdoe" },
        addlcomments := "", submit_date := none } = "Jane Doe" ∧
    Review.get_user_label
      { id := none, document := 1,
        user := { full_name := "", username := "jdoe" },
        addlcomments := "", submit_date := none } = "jdoe" :=
  ⟨(get_user_label_full_name_or_username _).1 (by decide),
   (get_user_label_full_name_or_username _).2 rfl⟩

/-- C7: the version list handler returns the document's versions ordered by
timestamp descending (newest first), and the result is a permutation of the
document's versions. -/
theorem version_list_sorted_desc (d : Document) :
    List.Pairwise (fun a b => b.timestamp ≤ a.timestamp)
      (get_source_queryset d) ∧
    (get_source_queryset d).Perm d.versions := by
  refine ⟨?_, List.mergeSort_perm _ _⟩
  have htrans : ∀ a b c : DocumentVersion, timestampDesc a b = true →
      timestampDesc b c = true → timestampDesc a c = true := by
    intro a b c h1 h2
    simp only [timestampDesc, decide_eq_true_eq] at *
    omega
  have htotal : ∀ a b : DocumentVersion,
      (timestampDesc a b || timestampDesc b a) = true := by
    intro a b
    simp only [timestampDesc, Bool.or_eq_true, decide_eq_true_eq]
    omega
  have h := @List.sorted_mergeSort DocumentVersion timestampDesc htrans htotal
    d.versions
  exact h.imp (fun hab => by
    simpa [timestampDesc] using hab)

/-- C9: the preview handler's dispatch marks the parent document as
recently accessed for the requesting user, appends exactly one "document
viewed" event with the user as actor and the parent document as target, and
produces the rendered preview of the version. -/
theorem preview_dispatch_effects (st : ServerState) (user : String)
    (version : DocumentVersion) :
    ((DocumentVersionView.dispatch st user version).1.recent =
      (user, version.document) :: st.recent) ∧
    ((DocumentVersionView.dispatch st user version).1.events =
      st.events ++
        [{ event := .document_view, actor := some (.user user),
           action_object := none,
           target := .document version.document }]) ∧
    ((DocumentVersionView.dispatch st user version).2 =
      render_preview version) :=
  ⟨rfl, rfl, rfl⟩

/-- C2: saving an unsaved review (insert) emits exactly one "review
created" event whose actor is the review's user, whose action object is the
review's document and whose target is the saved review itself (the freshly
assigned primary key); saving an already-stored review (update) emits
exactly one "review edited" event with the document as action object and
the review as target. -/
theorem review_save_emits_events (db : ReviewStore) (r : Review) :
    (r.id = none →
      (Review.save db r).1.events = db.events ++
        [{ event := .document_review_created,
           actor := some (.user r.user.username),
           action_object := some (.document r.document),
           target := .review db.nextId }] ∧
      (Review.save db r).2.id = some db.nextId) ∧
    (∀ i, r.id = some i →
      (Review.save db r).1.events = db.events ++
        [{ event := .document_review_edited,
           actor := none,
           action_object := some (.document r.document),
           target := .review i }]) := by
  constructor
  · intro h
    simp [Review.save, h]
  · intro i h
    simp [Review.save, h]

/-- Witness for C2: inserting a fresh review emits the created event with
the submitting user as actor. -/
theorem review_save_emits_events_witness :
    (Review.save { rows := [], events := [], nextId := 7, now := 100 }
        { id := none, document := 3,
          user := { full_name := "Jane Doe", username := "jdoe" },
          addlcomments := "looks good", submit_date := none }).1.events =
      [{ event := .document_review_created,
         actor := some (.user "jdoe"),
         action_object := some (.document 3),
         target := .review 7 }] := by
  have h := (review_save_emits_events
    { rows := [], events := [], nextId := 7, now := 100 }
    { id := none, document := 3,
      user := { full_name := "Jane Doe", username := "jdoe" },
      addlcomments := "looks good", submit_date := none }).1 rfl
  simpa using h.1

/-- C3: a review delete that completes without error emits exactly one
"review deleted" event targeting the review's parent document and removes
the row; when the underlying delete errors, nothing is returned as success
(the row is not removed and no event is emitted). -/
theorem review_delete_event (db : ReviewStore) (r : Review) :
    (Review.modelDelete true db r).isOk = true ∧
    (∀ db', Review.modelDelete true db r = .ok db' →
      db'.events = db.events ++
        [{ event := .document_review_deleted, actor := none,
           action_object := none, target := .document r.document }] ∧
      db'.rows = db.rows.filter (fun x => x.id ≠ r.id)) ∧
    (∀ db', Review.modelDelete false db r ≠ .ok db') := by
  refine ⟨?_, ?_, ?_⟩
  · simp [Review.modelDelete, Except.isOk, Except.toBool]
  · intro db' h
    simp [Review.modelDelete] at h
    subst h
    refine ⟨rfl, ?_⟩
    simp
  · intro db' h
    simp [Review.modelDelete] at h

/-- Witness for C3 at a concrete store with one stored review. -/
theorem review_delete_event_witness :
    sampleStoreAfterDelete.events = sampleStore.events ++
      [{ event := .document_review_deleted, actor := none,
         action_object := none,
         target := .document sampleReview.document }] ∧
    sampleStoreAfterDelete.rows =
      sampleStore.rows.filter (fun x => x.id ≠ sampleReview.id) :=
  (review_delete_event sampleStore sampleReview).2.1
    sampleStoreAfterDelete rfl

/-- C5: the bulk page-count action enqueues exactly one job per selected
version, each carrying that version's primary key as `version_id`; the
confirmation title is singular and names the object when exactly one
version is selected, and plural otherwise. -/
theorem update_page_count_jobs_and_title (queryset : List DocumentVersion) :
    (bulk_page_count_jobs queryset).length = queryset.length ∧
    (∀ (i : Nat) (v : DocumentVersion), queryset[i]? = some v →
      (bulk_page_count_jobs queryset)[i]? =
        some { version_id := v.pk }) ∧
    (∀ v, queryset = [v] →
      update_page_count_get_extra_context queryset =
        { object := some v,
          title := "Recalculate the page count of the document version: "
            ++ v.str ++ "?" }) ∧
    (queryset.length ≠ 1 →
      update_page_count_get_extra_context queryset =
        { object := none,
          title :=
            "Recalculate the page count of the selected document versions?" }) := by
  refine ⟨?_, ?_, ?_, ?_⟩
  · simp [bulk_page_count_jobs]
  · intro i v h
    simp [bulk_page_count_jobs, object_action, List.getElem?_map, h]
  · intro v h
    subst h
    simp [update_page_count_get_extra_context]
  · intro h
    have hb : (queryset.length == 1) = false := by simpa using h
    simp [update_page_count_get_extra_context, ungettext, hb]

/-- Witness for C5 at a concrete two-element selection and a one-element
selection. -/
theorem update_page_count_jobs_and_title_witness :
    (bulk_page_count_jobs
      [{ pk := 11, document := 1, timestamp := 5, str := "v11" },
       { pk := 12, document := 1, timestamp := 6, str := "v12" }]) =
      [{ version_id := 11 }, { version_id := 12 }] ∧
    update_page_count_get_extra_context
      [{ pk := 11, document := 1, timestamp := 5, str := "v11" }] =
      { object := some { pk := 11, document := 1, timestamp := 5, str := "v11" },
        title :=
          "Recalculate the page count of the document version: v11?" } ∧
    update_page_count_get_extra_context
      [{ pk := 11, document := 1, timestamp := 5, str := "v11" },
       { pk := 12, document := 1, timestamp := 6, str := "v12" }] =
      { object := none,
        title :=
          "Recalculate the page count of the selected document versions?" } := by
  refine ⟨rfl, ?_, ?_⟩
  · exact (update_page_count_jobs_and_title
      [{ pk := 11, document := 1, timestamp := 5, str := "v11" }]).2.2.1 _ rfl
  · exact (update_page_count_jobs_and_title
      [{ pk := 11, document := 1, timestamp := 5, str := "v11" },
       { pk := 12, document := 1, timestamp := 6, str := "v12" }]).2.2.2
      (by decide)

/-- Helper for C8: the instance returned by `Review.save` on an update is
the instance itself. -/
theorem save_update_snd (db : ReviewStore) (r : Review) (i : Nat)
    (h : r.id = some i) : (Review.save db r).2 = r := by
  simp [Review.save, h]

/-- Helper for C8: once a review instance carries a primary key, any
sequence of comment edits followed by saves leaves its user, its submission
timestamp and its primary key unchanged. -/
theorem editAndSaveAll_preserves_user_submit_date
    (cs : List String) :
    ∀ (db : ReviewStore) (r : Review) (i : Nat), r.id = some i →
      (editAndSaveAll db r cs).2.user = r.user ∧
      (editAndSaveAll db r cs).2.submit_date = r.submit_date ∧
      (editAndSaveAll db r cs).2.id = some i := by
  induction cs with
  | nil =>
      intro db r i h
      exact ⟨rfl, rfl, h⟩
  | cons c cs ih =>
      intro db r i h
      have h2 : (edit_comment r c).id = some i := h
      have hsave := save_update_snd db (edit_comment r c) i h2
      simp only [editAndSaveAll]
      rw [hsave]
      simpa [edit_comment] using
        ih (Review.save db (edit_comment r c)).1 (edit_comment r c) i h2

/-- C8: inserting a fresh review sets its submission timestamp
automatically (to the creation time, whatever the unsaved instance held)
and records the submitting user; thereafter any sequence of comment edits
followed by saves never changes the user or the submission timestamp. -/
theorem review_submit_date_user_immutable (db : ReviewStore) (r : Review)
    (h : r.id = none) :
    (Review.save db r).2.submit_date = some db.now ∧
    (Review.save db r).2.user = r.user ∧
    (∀ cs : List String,
      (editAndSaveAll (Review.save db r).1 (Review.save db r).2 cs).2.user =
        r.user ∧
      (editAndSaveAll (Review.save db r).1 (Review.save db r).2
          cs).2.submit_date = some db.now) := by
  have hsave : (Review.save db r).2 =
      { r with id := some db.nextId, submit_date := some db.now } := by
    simp [Review.save, h]
  refine ⟨by rw [hsave], by rw [hsave], ?_⟩
  intro cs
  have hpk : (Review.save db r).2.id = some db.nextId := by rw [hsave]
  have := editAndSaveAll_preserves_user_submit_date cs
    (Review.save db r).1 (Review.save db r).2 db.nextId hpk
  refine ⟨?_, ?_⟩
  · rw [this.1, hsave]
  · rw [this.2.1, hsave]

/-- Witness for C8: a fresh review saved at time 100, then edited twice. -/
theorem review_submit_date_user_immutable_witness :
    (Review.save { rows := [], events := [], nextId := 1, now := 100 }
        { id := none, document := 2,
          user := { full_name := "", username := "bob" },
          addlcomments := "first", submit_date := none }).2.submit_date =
      some 100 ∧
    (editAndSaveAll
        (Review.save { rows := [], events := [], nextId := 1, now := 100 }
          { id := none, document := 2,
            user := { full_name := "", username := "bob" },
            addlcomments := "first", submit_date := none }).1
        (Review.save { rows := [], events := [], nextId := 1, now := 100 }
          { id := none, document := 2,
            user := { full_name := "", username := "bob" },
            addlcomments := "first", submit_date := none }).2
        ["second", "third"]).2.submit_date = some 100 := by
  have h := review_submit_date_user_immutable
    { rows := [], events := [], nextId := 1, now := 100 }
    { id := none, document := 2,
      user := { full_name := "", username := "bob" },
      addlcomments := "first", submit_date := none } rfl
  exact ⟨h.1, (h.2.2 ["second", "third"]).2⟩

end Spec2Proof
